import Mathlib

/-!
Verification of the Cartesian domain-decomposition layer of psydac
(`psydac/ddm/cart.py`), via a shallow embedding of its index computations.

Conventions of the embedding:
* Python integers are `Int`; Python floor division `//` is `Int.fdiv`.
* Python tuples/lists are `List`; Python `zip` is `List.zip` (both truncate
  at the shortest argument).
* Out-of-range list reads (which raise `IndexError` in Python) appear as
  `List.getD` with a default; every theorem carries the length hypotheses
  under which the two semantics agree.
* The MPI communicator is abstracted to the data the constructor reads from
  it (`size`, `rank`, and the rank in the created Cartesian communicator,
  whose coordinates are the row-major unraveling mandated by MPI).
  Collective calls are recorded as events in a trace.
* `psydac.ddm.partition.compute_dims` is not part of the sources under
  verification; it enters as an explicit function parameter `cd`, and all
  theorems hold for every such function.
-/

/-- A Python value that may be passed as a periodicity flag: either a real
`bool` or some non-bool value (modelled by an `Int`, e.g. `0`/`1`). -/
inductive PyVal where
  | bool (b : Bool)
  | int (n : Int)
deriving DecidableEq, Repr

def PyVal.isBool : PyVal → Bool
  | .bool _ => true
  | .int _ => false

def PyVal.toBool : PyVal → Bool
  | .bool b => b
  | .int n => decide (n ≠ 0)

/-- The data the `CartDecomposition` constructor reads from its MPI
communicator: pool size, this process's rank, and the rank this process
receives in the Cartesian communicator created by `Create_cart`. -/
structure CommEnv where
  size : Nat
  rank : Nat
  rank_in_topo : Nat
deriving DecidableEq, Repr

/-- Collective MPI calls issued by the constructor, recorded as a trace. -/
inductive MPIEvent where
  | createCart
  | subComm
deriving DecidableEq, Repr

/-- Failures of the constructor's argument validation (`assert` statements
of `CartDecomposition.__init__`) and of grid creation. -/
inductive CartError where
  | lenMismatch
  | nptsNotPositive
  | padNegative
  | periodNotBool
  | commNotComm
  | computeDimsFailed
  | nprocsLenMismatch
  | nprocsProductMismatch
  | axisOutOfRange
deriving DecidableEq, Repr

/-- State of a `CartDecomposition` object: the fields assigned by
`__init__` (MPI handles are reduced to the data read from them). -/
structure Cart where
  npts : List Int
  pads : List Int
  periods : List Bool
  shifts : List Int
  reorder : Bool
  comm : Option CommEnv
  ndims : Nat
  size : Nat
  rank : Nat
  dims : List Nat
  reverse_axis : Option Nat
  rank_in_topo : Nat
  coords : List Nat
  reduced_global_starts : List (List Int)
  reduced_global_ends : List (List Int)
  global_starts : List (List Int)
  global_ends : List (List Int)
  starts : List Int
  ends : List Int
  shape : List Int
  pstarts : List (Option Int)
  pends : List (Option Int)
deriving DecidableEq, Repr, Inhabited

/-- Property `CartDecomposition.parent_starts`: the source returns
`self._starts` (not the stored `_parent_starts` field). -/
def Cart.parent_starts (c : Cart) : List Int := c.starts

/-- Property `CartDecomposition.parent_ends`: returns the stored
`_parent_ends` field. -/
def Cart.parent_ends (c : Cart) : List (Option Int) := c.pends

/-- Row-major unraveling of a linear rank into Cartesian coordinates
(`MPI_Cart_coords` / `np.unravel_index`, C order). -/
def unravelIndex (r : Nat) : List Nat → List Nat
  | [] => []
  | _ :: ds => r / ds.prod :: unravelIndex (r % ds.prod) ds

/-- One entry of `reduced_npts`: Python
`(n-p-1)//m if m>1 else n if not P else n`. -/
def reducedNpt (n m p : Int) (P : Bool) : Int :=
  if 1 < m then Int.fdiv (n - p - 1) m else if !P then n else n

/-- `reduced_npts` list: built by zipping `npts, shifts, pads, periods`
(Python `zip` truncates at the shortest list, and so does `List.zip`). -/
def mkReducedNpts (npts shifts pads : List Int) (periodsB : List Bool) : List Int :=
  ((npts.zip shifts).zip (pads.zip periodsB)).map fun x => reducedNpt x.1.1 x.1.2 x.2.1 x.2.2

/-- `self._reduced_global_starts[axis]`: `[(c*n)//d for c in range(d)]`. -/
def reducedGlobalStarts (n : Int) (d : Nat) : List Int :=
  (List.range d).map fun c => Int.fdiv ((c : Int) * n) (d : Int)

/-- `self._reduced_global_ends[axis]` before the multiplicity correction:
`[((c+1)*n)//d-1 for c in range(d)]`. -/
def reducedGlobalEndsBase (n : Int) (d : Nat) : List Int :=
  (List.range d).map fun c => Int.fdiv (((c : Int) + 1) * n) (d : Int) - 1

/-- `self._reduced_global_ends[axis]`: the base list, with
`ends[-1] += p+1` when `m > 1`. -/
def reducedGlobalEnds (n : Int) (d : Nat) (p m : Int) : List Int :=
  let ends := reducedGlobalEndsBase n d
  if 1 < m then ends.set (d - 1) (ends.getD (d - 1) 0 + (p + 1)) else ends

/-- The recurrence building `global_starts`: `global_starts[0] = 0`,
`global_starts[c] = global_starts[c-1] + (r_ends[c-1]-r_starts[c-1]+1)*m`. -/
def globalStartsF (m : Int) (rs re : List Int) : Nat → Int
  | 0 => 0
  | c + 1 => globalStartsF m rs re c + (re.getD c 0 - rs.getD c 0 + 1) * m

/-- `self._global_starts[axis]` as a list of length `d`. -/
def globalStartsList (m : Int) (rs re : List Int) (d : Nat) : List Int :=
  (List.range d).map (globalStartsF m rs re)

/-- `self._global_ends[axis]`:
`[global_starts[c+1]-1 for c in range(d-1)] + [n-1]`. -/
def globalEndsList (gs : List Int) (d : Nat) (n : Int) : List Int :=
  ((List.range (d - 1)).map fun c => gs.getD (c + 1) 0 - 1) ++ [n - 1]

/-- The collective calls issued by a successful `__init__`: one
`Create_cart` followed by one `Sub` per dimension. -/
def cartEvents (ndims : Nat) : List MPIEvent :=
  MPIEvent.createCart :: List.replicate ndims MPIEvent.subComm

/-- `shifts = tuple(shifts) if shifts else (1,)*len(npts)`. -/
def mkShiftsV (npts : List Int) (shifts : Option (List Int)) : List Int :=
  shifts.getD (List.replicate npts.length 1)

/-- The periodicity flags after validation (all are booleans). -/
def mkPeriodsB (periods : List PyVal) : List Bool :=
  periods.map PyVal.toBool

/-- The post-validation part of `CartDecomposition.__init__` (lines
712-781 of `cart.py`): coordinates in the Cartesian grid (with the
`reverse_axis` flip), the reduced and true start/end tables, this rank's
`starts`/`ends`, and the local `shape`. -/
def cartBuild (npts pads : List Int) (periodsB : List Bool) (reorder : Bool)
    (comm : CommEnv) (shiftsV reducedNpts : List Int) (dims : List Nat)
    (ra : Option Nat) : Cart :=
  let ndims := npts.length
  let coords0 := unravelIndex comm.rank_in_topo dims
  let coords := match ra with
    | some a => coords0.set a (dims.getD a 0 - coords0.getD a 0 - 1)
    | none => coords0
  let rgs := (List.range ndims).map fun axis =>
    reducedGlobalStarts (reducedNpts.getD axis 0) (dims.getD axis 0)
  let rge := (List.range ndims).map fun axis =>
    reducedGlobalEnds (reducedNpts.getD axis 0) (dims.getD axis 0)
      (pads.getD axis 0) (shiftsV.getD axis 0)
  let gs := (List.range ndims).map fun axis =>
    globalStartsList (shiftsV.getD axis 0) (rgs.getD axis []) (rge.getD axis [])
      (dims.getD axis 0)
  let ge := (List.range ndims).map fun axis =>
    globalEndsList (gs.getD axis []) (dims.getD axis 0) (npts.getD axis 0)
  let starts := ((List.range ndims).zip coords).map fun x => (gs.getD x.1 []).getD x.2 0
  let ends := ((List.range ndims).zip coords).map fun x => (ge.getD x.1 []).getD x.2 0
  let shape := ((starts.zip ends).zip (pads.zip shiftsV)).map fun x =>
    x.1.2 - x.1.1 + 1 + 2 * x.2.2 * x.2.1
  { npts := npts, pads := pads, periods := periodsB, shifts := shiftsV,
    reorder := reorder, comm := some comm, ndims := ndims, size := comm.size,
    rank := comm.rank, dims := dims, reverse_axis := ra,
    rank_in_topo := comm.rank_in_topo, coords := coords,
    reduced_global_starts := rgs, reduced_global_ends := rge,
    global_starts := gs, global_ends := ge, starts := starts, ends := ends,
    shape := shape, pstarts := List.replicate ndims none,
    pends := List.replicate ndims none }

/-- `CartDecomposition.__init__` (lines 656-781 of `cart.py`): argument
validation in source order, then `nprocs` selection (`compute_dims` enters
as the parameter `cd` since `psydac/ddm/partition.py` is not among the
verified sources), then grid creation and the index tables. The second
component is the trace of collective calls issued. -/
def cartInit (cd : Nat → List Int → List Int → Option (List Nat))
    (npts pads : List Int) (periods : List PyVal) (reorder : Bool)
    (comm : Option CommEnv) (shifts : Option (List Int))
    (nprocs : Option (List Nat)) (ra : Option Nat) :
    Except CartError Cart × List MPIEvent :=
  if ¬ (npts.length = pads.length ∧ pads.length = periods.length) then
    (.error .lenMismatch, [])
  else if ¬ npts.all (fun n => 1 ≤ n) then (.error .nptsNotPositive, [])
  else if ¬ pads.all (fun p => 0 ≤ p) then (.error .padNegative, [])
  else if ¬ periods.all PyVal.isBool then (.error .periodNotBool, [])
  else match comm with
    | none => (.error .commNotComm, [])
    | some comm =>
      match nprocs with
      | none =>
        match cd comm.size (mkReducedNpts npts (mkShiftsV npts shifts) pads (mkPeriodsB periods)) pads with
        | none => (.error .computeDimsFailed, [])
        | some dims =>
          if ¬ dims.prod = comm.size then (.error .nprocsProductMismatch, [])
          else (.ok (cartBuild npts pads (mkPeriodsB periods) reorder comm
                      (mkShiftsV npts shifts)
                      (mkReducedNpts npts (mkShiftsV npts shifts) pads (mkPeriodsB periods)) dims ra),
                cartEvents npts.length)
      | some np =>
        if ¬ np.length = npts.length then (.error .nprocsLenMismatch, [])
        else if ¬ np.prod = comm.size then (.error .nprocsProductMismatch, [])
        else (.ok (cartBuild npts pads (mkPeriodsB periods) reorder comm
                    (mkShiftsV npts shifts)
                    (mkReducedNpts npts (mkShiftsV npts shifts) pads (mkPeriodsB periods)) np ra),
              cartEvents npts.length)

/-- The per-axis/per-direction exchange descriptor built by
`CartDecomposition._compute_shift_info`. -/
structure ShiftInfo where
  rank_dest : Int
  rank_source : Int
  buf_shape : List Int
  send_starts : List Int
  recv_starts : List Int
deriving DecidableEq, Repr

/-- `CartDecomposition._compute_shift_info` (lines 944-982 of `cart.py`).
`shiftPrim direction disp` stands for the pair
`(rank_source, rank_dest)` returned by `comm_cart.Shift(direction, disp)`;
the pair is swapped when `reverse_axis == direction`. -/
def compute_shift_info (c : Cart) (shiftPrim : Nat → Int → Int × Int)
    (direction : Nat) (disp : Int) : ShiftInfo :=
  let reorder := c.reverse_axis = some direction
  let sr := shiftPrim direction disp
  let rank_source := if reorder then sr.2 else sr.1
  let rank_dest := if reorder then sr.1 else sr.2
  let s := c.starts.getD direction 0
  let e := c.ends.getD direction 0
  let p := c.pads.getD direction 0
  let m := c.shifts.getD direction 0
  let buf_shape := c.shape.set direction (m * p)
  let zeros : List Int := List.replicate c.ndims 0
  let send_starts :=
    if 0 < disp then zeros.set direction (e - s + 1)
    else if disp < 0 then zeros.set direction (m * p)
    else zeros
  let recv_starts :=
    if 0 < disp then zeros.set direction 0
    else if disp < 0 then zeros.set direction (e - s + 1 + m * p)
    else zeros
  ⟨rank_dest, rank_source, buf_shape, send_starts, recv_starts⟩

/-- `CartDecomposition.reduce_elements` (lines 984-1085 of `cart.py`),
in state-passing style: the first component of the result is the state of
`self` after the call (the method never assigns to `self`), the second the
returned cart or the error raised.  The method's first statement
constructs `CartDecomposition(self._npts, self._pads, self._periods,
self._reorder, shifts=self.shifts, reverse_axis=self.reverse_axis)`
*without* a communicator, so the nested constructor's
`assert isinstance(comm, MPI.Comm)` fails; the remaining statements are
dead code, embedded for completeness (Python would raise `IndexError`
where a `getD` below reads out of range). -/
def reduce_elements (cd : Nat → List Int → List Int → Option (List Nat))
    (self : Cart) (axes : List Nat) (n_elements : List Int) :
    Cart × Except CartError Cart :=
  match (cartInit cd self.npts self.pads (self.periods.map PyVal.bool)
      self.reorder none (some self.shifts) none self.reverse_axis).1 with
  | .error e => (self, .error e)
  | .ok cart0 =>
    let cart1 := { cart0 with
      dims := self.dims
      coords := self.coords
      shifts := self.shifts.map fun m => max 1 (m - 1) }
    if ¬ axes.all (fun a => a < cart1.ndims) then (self, .error .axisOutOfRange)
    else
      let npts1 := (cart1.npts.zip n_elements).map fun x => x.1 - x.2
      let gs := (List.range cart1.ndims).map fun axis =>
        globalStartsList (cart1.shifts.getD axis 0)
          (cart1.reduced_global_starts.getD axis [])
          (cart1.reduced_global_ends.getD axis []) (cart1.dims.getD axis 0)
      let ge := (List.range cart1.ndims).map fun axis =>
        globalEndsList (gs.getD axis []) (cart1.dims.getD axis 0) (npts1.getD axis 0)
      let starts := ((List.range cart1.ndims).zip self.coords).map fun x =>
        (gs.getD x.1 []).getD x.2 0
      let ends := ((List.range cart1.ndims).zip self.coords).map fun x =>
        (ge.getD x.1 []).getD x.2 0
      let shape := ((starts.zip ends).zip (cart0.pads.zip cart1.shifts)).map fun x =>
        x.1.2 - x.1.1 + 1 + 2 * x.2.2 * x.2.1
      let rgs := (List.range cart1.ndims).map fun axis =>
        self.reduced_global_starts.getD axis []
      let rge := (List.range cart1.ndims).map fun axis =>
        let e0 := self.reduced_global_ends.getD axis []
        if ¬ (cart1.periods.getD axis false) then
          e0.set (e0.length - 1) (npts1.getD axis 0 - 1)
        else e0
      (self, .ok { cart1 with
        npts := npts1
        global_starts := gs
        global_ends := ge
        starts := starts
        ends := ends
        shape := shape
        reduced_global_starts := rgs
        reduced_global_ends := rge
        pstarts := self.starts.map some
        pends := self.ends.map some })

/-- `CartDecomposition.reduce_grid` (lines 1087-1146 of `cart.py`), in
state-passing style: first component is the state of `self` after the call
(never mutated), second the returned cart or the error raised.  The method
first builds `CartDecomposition(self.npts, self.pads, self.periods,
self.reorder, comm=self.comm)` and then replaces its index tables with the
caller-supplied ones; the local shape is recomputed with plain `pads`
(no multiplicity factor), and `npts` becomes `end[-1]+1` per axis. -/
def reduce_grid (cd : Nat → List Int → List Int → Option (List Nat))
    (self : Cart) (global_starts global_ends : List (List Int)) :
    Cart × Except CartError Cart :=
  match (cartInit cd self.npts self.pads (self.periods.map PyVal.bool)
      self.reorder self.comm none none none).1 with
  | .error e => (self, .error e)
  | .ok cart0 =>
    let npts1 := global_ends.map fun e => e.getD (e.length - 1) 0 + 1
    let starts1 := (self.coords.zip global_starts).map fun x => x.2.getD x.1 0
    let ends1 := (self.coords.zip global_ends).map fun x => x.2.getD x.1 0
    let shape1 := ((starts1.zip ends1).zip cart0.pads).map fun x =>
      x.1.2 - x.1.1 + 1 + 2 * x.2
    (self, .ok { cart0 with
      npts := npts1
      dims := self.dims
      rank_in_topo := self.rank_in_topo
      coords := self.coords
      starts := starts1
      ends := ends1
      shape := shape1
      global_starts := global_starts
      global_ends := global_ends })

/-- The remote boundary slice of one boundary-owning rank, as computed in
`InterfaceCartDecomposition._compute_communication_infos` (lines 558-564
and 593-599 of `cart.py`, identical for the two sides up to minus/plus
naming): per-axis `starts`/`ends` are read from the remote side's global
tables at the rank's grid coordinates, then clamped along the interface
axis to a `pad+1`-thick layer at the given extremity `ext`; the result is
the per-axis extent list `[e-s+1, ...]`. -/
def sliceShape (gs ge : List (List Int)) (pads : List Int) (axis : Nat)
    (ext : Int) (coords : List Nat) : List Int :=
  let starts := (List.range coords.length).map fun d =>
    (gs.getD d []).getD (coords.getD d 0) 0
  let ends := (List.range coords.length).map fun d =>
    (ge.getD d []).getD (coords.getD d 0) 0
  let p := pads.getD axis 0
  let s0 := starts.getD axis 0
  let e0 := ends.getD axis 0
  let starts1 := starts.set axis (if ext = -1 then s0 else e0 - p)
  let ends1 := ends.set axis (if ext = -1 then starts1.getD axis 0 + p else e0)
  (starts1.zip ends1).map fun x => x.2 - x.1 + 1

/-- `recv_counts` of `_compute_communication_infos`: for the `k`-th remote
boundary rank `b`, the volume `np.product(shape_k)` of its boundary slice;
the rank's grid coordinates are `np.unravel_index(b, nprocs)`. -/
def commRecvCounts (gs ge : List (List Int)) (pads : List Int) (axis : Nat)
    (ext : Int) (nprocs : List Nat) (boundary_ranks : List Nat) : List Int :=
  boundary_ranks.map fun b =>
    (sliceShape gs ge pads axis ext (unravelIndex b nprocs)).prod

/-- Running sum with accumulator, modelling `np.cumsum`. -/
def cumsumFrom (acc : Int) : List Int → List Int
  | [] => []
  | a :: l => (acc + a) :: cumsumFrom (acc + a) l

/-- `displacements` of `_compute_communication_infos`:
`[0]*(len(boundary_ranks)+1)` with `displacements[1:] = np.cumsum(recv_counts)`. -/
def commDisplacements (recv_counts : List Int) : List Int :=
  0 :: cumsumFrom 0 recv_counts

/-- Numpy fancy assignment `arr[indices] = vals` on a raveled array:
pointwise stores, later duplicates winning. -/
def npAssign (arr : List Int) (indices : List Nat) (vals : List Int) : List Int :=
  (indices.zip vals).foldl (fun a x => a.set x.1 x.2) arr

/-- `InterfaceCartDataExchanger.end_update_ghost_regions` (lines 1364-1375
of `cart.py`): after waiting on the request (no data effect), a minus-side
rank scatters the packed receive buffer into the *plus* array through the
flat-index table, a plus-side rank into the *minus* array; the result pair
is `(array_minus, array_plus)` after the call. -/
def end_update_ghost_regions (local_rank_minus local_rank_plus : Option Nat)
    (indices : List Nat) (recv_buf : List Int)
    (array_minus array_plus : List Int) : List Int × List Int :=
  if local_rank_minus.isSome then
    (array_minus, npAssign array_plus indices recv_buf)
  else if local_rank_plus.isSome then
    (npAssign array_minus indices recv_buf, array_plus)
  else (array_minus, array_plus)

lemma mapRange_getD {α : Type} (f : Nat → α) (n i : Nat) (d : α) (h : i < n) :
    ((List.range n).map f).getD i d = f i := by
  rw [List.getD_eq_getElem _ _ (by simpa using h)]
  simp

lemma replicate_getD {α : Type} (n : Nat) (a d : α) (i : Nat) (h : i < n) :
    (List.replicate n a).getD i d = a := by
  rw [List.getD_eq_getElem _ _ (by simpa using h)]
  exact List.getElem_replicate a _

lemma zip_getD {α β : Type} (l1 : List α) (l2 : List β) (i : Nat) (d1 : α) (d2 : β)
    (h1 : i < l1.length) (h2 : i < l2.length) :
    (l1.zip l2).getD i (d1, d2) = (l1.getD i d1, l2.getD i d2) := by
  rw [List.getD_eq_getElem _ _ (by simp [List.length_zip]; omega),
      List.getD_eq_getElem _ _ h1, List.getD_eq_getElem _ _ h2]
  exact List.getElem_zip

lemma zipMap_getD {α β γ : Type} (l1 : List α) (l2 : List β) (g : α × β → γ)
    (i : Nat) (d : γ) (d1 : α) (d2 : β) (h1 : i < l1.length) (h2 : i < l2.length) :
    ((l1.zip l2).map g).getD i d = g (l1.getD i d1, l2.getD i d2) := by
  rw [List.getD_eq_getElem _ _ (by simp [List.length_zip]; omega), List.getElem_map,
      List.getElem_zip, List.getD_eq_getElem _ _ h1, List.getD_eq_getElem _ _ h2]

lemma set_getD_same {α : Type} (l : List α) (i : Nat) (v d : α) (h : i < l.length) :
    (l.set i v).getD i d = v := by
  rw [List.getD_eq_getElem _ _ (by simpa using h)]
  exact List.getElem_set_self _

lemma set_getD_ne {α : Type} (l : List α) (i j : Nat) (v d : α) (hne : i ≠ j) :
    (l.set i v).getD j d = l.getD j d := by
  by_cases hj : j < l.length
  · rw [List.getD_eq_getElem _ _ (by simpa using hj), List.getD_eq_getElem _ _ hj]
    exact List.getElem_set_ne hne _
  · rw [List.getD_eq_default _ _ (by simpa using Nat.le_of_not_lt hj),
        List.getD_eq_default _ _ (Nat.le_of_not_lt hj)]

lemma unravelIndex_length (r : Nat) (l : List Nat) :
    (unravelIndex r l).length = l.length := by
  induction l generalizing r with
  | nil => rfl
  | cons d ds ih => simp [unravelIndex, ih]

lemma cartBuild_npts (npts pads : List Int) (pB : List Bool) (r : Bool) (cE : CommEnv)
    (sV rN : List Int) (dims : List Nat) (ra : Option Nat) :
    (cartBuild npts pads pB r cE sV rN dims ra).npts = npts := rfl

lemma cartBuild_pads (npts pads : List Int) (pB : List Bool) (r : Bool) (cE : CommEnv)
    (sV rN : List Int) (dims : List Nat) (ra : Option Nat) :
    (cartBuild npts pads pB r cE sV rN dims ra).pads = pads := rfl

lemma cartBuild_shifts (npts pads : List Int) (pB : List Bool) (r : Bool) (cE : CommEnv)
    (sV rN : List Int) (dims : List Nat) (ra : Option Nat) :
    (cartBuild npts pads pB r cE sV rN dims ra).shifts = sV := rfl

lemma cartBuild_ndims (npts pads : List Int) (pB : List Bool) (r : Bool) (cE : CommEnv)
    (sV rN : List Int) (dims : List Nat) (ra : Option Nat) :
    (cartBuild npts pads pB r cE sV rN dims ra).ndims = npts.length := rfl

lemma cartBuild_dims (npts pads : List Int) (pB : List Bool) (r : Bool) (cE : CommEnv)
    (sV rN : List Int) (dims : List Nat) (ra : Option Nat) :
    (cartBuild npts pads pB r cE sV rN dims ra).dims = dims := rfl

lemma cartBuild_pstarts (npts pads : List Int) (pB : List Bool) (r : Bool) (cE : CommEnv)
    (sV rN : List Int) (dims : List Nat) (ra : Option Nat) :
    (cartBuild npts pads pB r cE sV rN dims ra).pstarts = List.replicate npts.length none := rfl

lemma cartBuild_pends (npts pads : List Int) (pB : List Bool) (r : Bool) (cE : CommEnv)
    (sV rN : List Int) (dims : List Nat) (ra : Option Nat) :
    (cartBuild npts pads pB r cE sV rN dims ra).pends = List.replicate npts.length none := rfl

lemma cartBuild_coords_length (npts pads : List Int) (pB : List Bool) (r : Bool) (cE : CommEnv)
    (sV rN : List Int) (dims : List Nat) (ra : Option Nat) :
    (cartBuild npts pads pB r cE sV rN dims ra).coords.length = dims.length := by
  show (match ra with
    | some a => (unravelIndex cE.rank_in_topo dims).set a
        (dims.getD a 0 - (unravelIndex cE.rank_in_topo dims).getD a 0 - 1)
    | none => unravelIndex cE.rank_in_topo dims).length = dims.length
  cases ra <;> simp [unravelIndex_length]

lemma cartBuild_global_starts_getD (npts pads : List Int) (pB : List Bool) (r : Bool)
    (cE : CommEnv) (sV rN : List Int) (dims : List Nat) (ra : Option Nat) (axis : Nat)
    (h : axis < npts.length) :
    (cartBuild npts pads pB r cE sV rN dims ra).global_starts.getD axis [] =
      globalStartsList (sV.getD axis 0)
        (reducedGlobalStarts (rN.getD axis 0) (dims.getD axis 0))
        (reducedGlobalEnds (rN.getD axis 0) (dims.getD axis 0) (pads.getD axis 0) (sV.getD axis 0))
        (dims.getD axis 0) := by
  show (((List.range npts.length).map _ : List (List Int))).getD axis [] = _
  rw [mapRange_getD _ _ _ _ h, mapRange_getD _ _ _ _ h, mapRange_getD _ _ _ _ h]

lemma cartBuild_global_ends_getD (npts pads : List Int) (pB : List Bool) (r : Bool)
    (cE : CommEnv) (sV rN : List Int) (dims : List Nat) (ra : Option Nat) (axis : Nat)
    (h : axis < npts.length) :
    (cartBuild npts pads pB r cE sV rN dims ra).global_ends.getD axis [] =
      globalEndsList ((cartBuild npts pads pB r cE sV rN dims ra).global_starts.getD axis [])
        (dims.getD axis 0) (npts.getD axis 0) := by
  show (((List.range npts.length).map _ : List (List Int))).getD axis [] = _
  rw [mapRange_getD _ _ _ _ h]
  rfl

lemma cartBuild_starts_getD (npts pads : List Int) (pB : List Bool) (r : Bool)
    (cE : CommEnv) (sV rN : List Int) (dims : List Nat) (ra : Option Nat) (axis : Nat)
    (h : axis < npts.length) (hdl : axis < dims.length) :
    (cartBuild npts pads pB r cE sV rN dims ra).starts.getD axis 0 =
      ((cartBuild npts pads pB r cE sV rN dims ra).global_starts.getD axis []).getD
        ((cartBuild npts pads pB r cE sV rN dims ra).coords.getD axis 0) 0 := by
  have hc : axis < (cartBuild npts pads pB r cE sV rN dims ra).coords.length := by
    rw [cartBuild_coords_length]; exact hdl
  show (((List.range npts.length).zip
      (cartBuild npts pads pB r cE sV rN dims ra).coords).map _).getD axis 0 = _
  rw [zipMap_getD _ _ _ _ _ 0 0 (by simpa using h) hc]
  have hr : (List.range npts.length).getD axis 0 = axis := by
    rw [List.getD_eq_getElem _ _ (by simpa using h)]
    simp
  rw [hr]
  rfl

lemma cartBuild_ends_getD (npts pads : List Int) (pB : List Bool) (r : Bool)
    (cE : CommEnv) (sV rN : List Int) (dims : List Nat) (ra : Option Nat) (axis : Nat)
    (h : axis < npts.length) (hdl : axis < dims.length) :
    (cartBuild npts pads pB r cE sV rN dims ra).ends.getD axis 0 =
      ((cartBuild npts pads pB r cE sV rN dims ra).global_ends.getD axis []).getD
        ((cartBuild npts pads pB r cE sV rN dims ra).coords.getD axis 0) 0 := by
  have hc : axis < (cartBuild npts pads pB r cE sV rN dims ra).coords.length := by
    rw [cartBuild_coords_length]; exact hdl
  show (((List.range npts.length).zip
      (cartBuild npts pads pB r cE sV rN dims ra).coords).map _).getD axis 0 = _
  rw [zipMap_getD _ _ _ _ _ 0 0 (by simpa using h) hc]
  have hr : (List.range npts.length).getD axis 0 = axis := by
    rw [List.getD_eq_getElem _ _ (by simpa using h)]
    simp
  rw [hr]
  rfl

lemma cartBuild_starts_length (npts pads : List Int) (pB : List Bool) (r : Bool)
    (cE : CommEnv) (sV rN : List Int) (dims : List Nat) (ra : Option Nat) :
    (cartBuild npts pads pB r cE sV rN dims ra).starts.length =
      min npts.length (cartBuild npts pads pB r cE sV rN dims ra).coords.length := by
  show (((List.range npts.length).zip
      (cartBuild npts pads pB r cE sV rN dims ra).coords).map _).length = _
  simp [List.length_zip]

lemma cartBuild_ends_length (npts pads : List Int) (pB : List Bool) (r : Bool)
    (cE : CommEnv) (sV rN : List Int) (dims : List Nat) (ra : Option Nat) :
    (cartBuild npts pads pB r cE sV rN dims ra).ends.length =
      min npts.length (cartBuild npts pads pB r cE sV rN dims ra).coords.length := by
  show (((List.range npts.length).zip
      (cartBuild npts pads pB r cE sV rN dims ra).coords).map _).length = _
  simp [List.length_zip]

lemma cartBuild_shape_getD (npts pads : List Int) (pB : List Bool) (r : Bool)
    (cE : CommEnv) (sV rN : List Int) (dims : List Nat) (ra : Option Nat) (axis : Nat)
    (h : axis < npts.length) (hdl : axis < dims.length) (hpl : axis < pads.length)
    (hsl : axis < sV.length) :
    (cartBuild npts pads pB r cE sV rN dims ra).shape.getD axis 0 =
      (cartBuild npts pads pB r cE sV rN dims ra).ends.getD axis 0 -
        (cartBuild npts pads pB r cE sV rN dims ra).starts.getD axis 0 + 1 +
        2 * sV.getD axis 0 * pads.getD axis 0 := by
  have hc : axis < (cartBuild npts pads pB r cE sV rN dims ra).coords.length := by
    rw [cartBuild_coords_length]; exact hdl
  have hst : axis < (cartBuild npts pads pB r cE sV rN dims ra).starts.length := by
    rw [cartBuild_starts_length]; omega
  have hen : axis < (cartBuild npts pads pB r cE sV rN dims ra).ends.length := by
    rw [cartBuild_ends_length]; omega
  show ((((cartBuild npts pads pB r cE sV rN dims ra).starts.zip
      (cartBuild npts pads pB r cE sV rN dims ra).ends).zip (pads.zip sV)).map _).getD axis 0 = _
  rw [zipMap_getD _ _ _ _ _ ((0 : Int), (0 : Int)) ((0 : Int), (0 : Int))
      (by simp [List.length_zip]; omega) (by simp [List.length_zip]; omega)]
  rw [zip_getD _ _ _ _ _ hst hen, zip_getD _ _ _ _ _ hpl hsl]

lemma cartInit_ok (cd : Nat → List Int → List Int → Option (List Nat))
    (npts pads : List Int) (periods : List PyVal) (reorder : Bool)
    (comm : Option CommEnv) (shifts : Option (List Int))
    (nprocs : Option (List Nat)) (ra : Option Nat) (c : Cart)
    (h : (cartInit cd npts pads periods reorder comm shifts nprocs ra).1 = .ok c) :
    ∃ commE dims, comm = some commE ∧ dims.prod = commE.size ∧
      npts.length = pads.length ∧ pads.length = periods.length ∧
      (nprocs = some dims → dims.length = npts.length) ∧
      c = cartBuild npts pads (mkPeriodsB periods) reorder commE (mkShiftsV npts shifts)
            (mkReducedNpts npts (mkShiftsV npts shifts) pads (mkPeriodsB periods)) dims ra := by
  unfold cartInit at h
  split at h
  · simp at h
  next hlen =>
  split at h
  · simp at h
  split at h
  · simp at h
  split at h
  · simp at h
  split at h
  · simp at h
  next commE =>
  have hlen2 : npts.length = pads.length ∧ pads.length = periods.length := by
    by_contra hq
    exact hlen hq
  split at h
  · split at h
    · simp at h
    next dims hcd =>
      split at h
      · simp at h
      next hprod =>
        simp only [Except.ok.injEq] at h
        exact ⟨commE, dims, rfl, by omega, hlen2.1, hlen2.2, by simp, h.symm⟩
  · next np =>
    split at h
    · simp at h
    next hnl =>
    split at h
    · simp at h
    next hprod =>
      simp only [Except.ok.injEq] at h
      exact ⟨commE, np, rfl, by omega, hlen2.1, hlen2.2,
        fun he => by cases he; omega, h.symm⟩

lemma globalStartsList_getD (m : Int) (rs re : List Int) (d : Nat) (c : Nat) (h : c < d) :
    (globalStartsList m rs re d).getD c 0 = globalStartsF m rs re c :=
  mapRange_getD _ _ _ _ h

lemma globalEndsList_getD_last (gs : List Int) (d : Nat) (n : Int) (_h : 1 ≤ d) :
    (globalEndsList gs d n).getD (d - 1) 0 = n - 1 := by
  unfold globalEndsList
  rw [List.getD_append_right _ _ _ _ (by simp)]
  simp

lemma globalEndsList_getD_lt (gs : List Int) (d : Nat) (n : Int) (c : Nat) (h : c < d - 1) :
    (globalEndsList gs d n).getD c 0 = gs.getD (c + 1) 0 - 1 := by
  unfold globalEndsList
  rw [List.getD_append _ _ _ _ (by simp [h]), mapRange_getD _ _ _ _ h]

/-- A compute_dims stand-in used only to exercise the model on concrete
inputs (the explicit-nprocs path never calls it). -/
def cdEx : Nat → List Int → List Int → Option (List Nat) := fun _ _ _ => some [1, 2]

/-- Concrete communicator data: pool of 2 processes, this one has rank 0
and keeps rank 0 in the Cartesian communicator. -/
def commEx : CommEnv := ⟨2, 0, 0⟩

/-- A concrete successful construction: `npts=[10,10]`, `pads=[1,1]`,
non-periodic, `nprocs=[1,2]`. -/
def cartInitEx : Except CartError Cart × List MPIEvent :=
  cartInit cdEx [10, 10] [1, 1] [PyVal.bool false, PyVal.bool false] false
    (some commEx) none (some [1, 2]) none

/-- The cart produced by `cartInitEx`. -/
def cartEx : Cart :=
  match cartInitEx.1 with
  | .ok c => c
  | .error _ => default

/-- C1: for every CartDecomposition constructed from valid inputs and for
every axis, `global_starts[axis][0] == 0`,
`global_ends[axis][-1] == npts[axis]-1`, and
`global_starts[axis][c] == global_ends[axis][c-1] + 1` for all `c > 0`, so
the per-process blocks cover `[0, npts[axis])` contiguously. -/
theorem C1_global_tables_partition
    (cd : Nat → List Int → List Int → Option (List Nat))
    (npts pads : List Int) (periods : List PyVal) (reorder : Bool)
    (comm : Option CommEnv) (shifts : Option (List Int))
    (nprocs : Option (List Nat)) (ra : Option Nat) (c : Cart) (tr : List MPIEvent)
    (axis : Nat)
    (h : cartInit cd npts pads periods reorder comm shifts nprocs ra = (.ok c, tr))
    (haxis : axis < c.ndims) (hd : 1 ≤ c.dims.getD axis 0) :
    (c.global_starts.getD axis []).getD 0 0 = 0 ∧
    (c.global_ends.getD axis []).getD (c.dims.getD axis 0 - 1) 0 = c.npts.getD axis 0 - 1 ∧
    ∀ cc, 0 < cc → cc < c.dims.getD axis 0 →
      (c.global_starts.getD axis []).getD cc 0 =
        (c.global_ends.getD axis []).getD (cc - 1) 0 + 1 := by
  obtain ⟨commE, dims, hcomm, hprod, hl1, hl2, hnp, hc⟩ :=
    cartInit_ok cd npts pads periods reorder comm shifts nprocs ra c (by rw [h])
  subst hc
  rw [cartBuild_ndims] at haxis
  rw [cartBuild_dims] at hd
  rw [cartBuild_dims, cartBuild_npts,
      cartBuild_global_starts_getD _ _ _ _ _ _ _ _ _ _ haxis,
      cartBuild_global_ends_getD _ _ _ _ _ _ _ _ _ _ haxis,
      cartBuild_global_starts_getD _ _ _ _ _ _ _ _ _ _ haxis]
  refine ⟨?_, ?_, ?_⟩
  · rw [globalStartsList_getD _ _ _ _ _ (by omega)]
    rfl
  · rw [globalEndsList_getD_last _ _ _ hd]
  · intro cc h0 hcc
    rw [globalEndsList_getD_lt _ _ _ _ (by omega)]
    have : cc - 1 + 1 = cc := by omega
    rw [this]
    omega

/-- C1 witness: the partition equalities hold on axis 1 of the concrete
two-process example (`npts=[10,10]`, `nprocs=[1,2]`). -/
theorem C1_global_tables_partition_witness :
    (cartEx.global_starts.getD 1 []).getD 0 0 = 0 ∧
    (cartEx.global_ends.getD 1 []).getD (cartEx.dims.getD 1 0 - 1) 0 =
      cartEx.npts.getD 1 0 - 1 ∧
    (cartEx.global_starts.getD 1 []).getD 1 0 =
      (cartEx.global_ends.getD 1 []).getD 0 0 + 1 := by
  have h := C1_global_tables_partition cdEx [10, 10] [1, 1]
    [PyVal.bool false, PyVal.bool false] false (some commEx) none (some [1, 2]) none
    cartEx (cartEvents 2) 1 rfl (by decide) (by decide)
  exact ⟨h.1, h.2.1, h.2.2 1 (by decide) (by decide)⟩

/-- C4: for every CartDecomposition constructed from valid inputs and
every axis, the local shape equals `ends-starts+1+2*shift*pad`, where
`starts`/`ends` are this rank's entries of the global tables at its grid
coordinates. -/
theorem C4_local_shape
    (cd : Nat → List Int → List Int → Option (List Nat))
    (npts pads : List Int) (periods : List PyVal) (reorder : Bool)
    (comm : Option CommEnv) (shifts : Option (List Int))
    (nprocs : Option (List Nat)) (ra : Option Nat) (c : Cart) (tr : List MPIEvent)
    (axis : Nat)
    (h : cartInit cd npts pads periods reorder comm shifts nprocs ra = (.ok c, tr))
    (haxis : axis < c.ndims) (hdl : c.dims.length = c.ndims)
    (hsl : c.shifts.length = c.ndims) :
    c.shape.getD axis 0 = c.ends.getD axis 0 - c.starts.getD axis 0 + 1 +
      2 * c.shifts.getD axis 0 * c.pads.getD axis 0 ∧
    c.starts.getD axis 0 = (c.global_starts.getD axis []).getD (c.coords.getD axis 0) 0 ∧
    c.ends.getD axis 0 = (c.global_ends.getD axis []).getD (c.coords.getD axis 0) 0 := by
  obtain ⟨commE, dims, hcomm, hprod, hl1, hl2, hnp, hc⟩ :=
    cartInit_ok cd npts pads periods reorder comm shifts nprocs ra c (by rw [h])
  subst hc
  rw [cartBuild_ndims] at haxis
  rw [cartBuild_dims, cartBuild_ndims] at hdl
  rw [cartBuild_shifts, cartBuild_ndims] at hsl
  have hdax : axis < dims.length := by omega
  constructor
  · rw [cartBuild_shape_getD _ _ _ _ _ _ _ _ _ _ haxis hdax (by omega) (by omega),
        cartBuild_shifts, cartBuild_pads]
  constructor
  · rw [cartBuild_starts_getD _ _ _ _ _ _ _ _ _ _ haxis hdax]
  · rw [cartBuild_ends_getD _ _ _ _ _ _ _ _ _ _ haxis hdax]

/-- C4 witness: on the concrete two-process example, axis 1 has local
shape `ends-starts+1+2*shift*pad` with the start/end read from the global
tables at this rank's coordinates. -/
theorem C4_local_shape_witness :
    cartEx.shape.getD 1 0 = cartEx.ends.getD 1 0 - cartEx.starts.getD 1 0 + 1 +
      2 * cartEx.shifts.getD 1 0 * cartEx.pads.getD 1 0 ∧
    cartEx.starts.getD 1 0 =
      (cartEx.global_starts.getD 1 []).getD (cartEx.coords.getD 1 0) 0 ∧
    cartEx.ends.getD 1 0 =
      (cartEx.global_ends.getD 1 []).getD (cartEx.coords.getD 1 0) 0 :=
  C4_local_shape cdEx [10, 10] [1, 1] [PyVal.bool false, PyVal.bool false] false
    (some commEx) none (some [1, 2]) none cartEx (cartEvents 2) 1 rfl
    (by decide) (by decide) (by decide)

/-- C10: immediately after construction, `parent_ends` returns a tuple of
`ndim` None values while `parent_starts` returns the topology's own
`starts` tuple (it reads `_starts`, not the stored `_parent_starts`, which
also holds `ndim` None values). -/
theorem C10_parent_accessors_asymmetry
    (cd : Nat → List Int → List Int → Option (List Nat))
    (npts pads : List Int) (periods : List PyVal) (reorder : Bool)
    (comm : Option CommEnv) (shifts : Option (List Int))
    (nprocs : Option (List Nat)) (ra : Option Nat) (c : Cart) (tr : List MPIEvent)
    (h : cartInit cd npts pads periods reorder comm shifts nprocs ra = (.ok c, tr)) :
    c.parent_ends = List.replicate c.ndims none ∧
    c.parent_starts = c.starts ∧
    c.pstarts = List.replicate c.ndims none := by
  obtain ⟨commE, dims, hcomm, hprod, hl1, hl2, hnp, hc⟩ :=
    cartInit_ok cd npts pads periods reorder comm shifts nprocs ra c (by rw [h])
  subst hc
  refine ⟨?_, rfl, ?_⟩
  · rw [Cart.parent_ends, cartBuild_pends, cartBuild_ndims]
  · rw [cartBuild_pstarts, cartBuild_ndims]

/-- C10 witness: the accessor asymmetry on the concrete example. -/
theorem C10_parent_accessors_asymmetry_witness :
    cartEx.parent_ends = List.replicate cartEx.ndims none ∧
    cartEx.parent_starts = cartEx.starts ∧
    cartEx.pstarts = List.replicate cartEx.ndims none :=
  C10_parent_accessors_asymmetry cdEx [10, 10] [1, 1]
    [PyVal.bool false, PyVal.bool false] false (some commEx) none (some [1, 2]) none
    cartEx (cartEvents 2) rfl

/-- C2: the shift-info descriptor has `buf_shape` equal to the local shape
except `buf_shape[d] = shift*pad`; for `disp=+1` it has
`send_starts[d] = ends[d]-starts[d]+1` and `recv_starts[d] = 0`, for
`disp=-1` it has `send_starts[d] = shift*pad` and
`recv_starts[d] = ends[d]-starts[d]+1+shift*pad`, with zero offsets on all
other axes; and when `reverse_axis == d` the source and destination ranks
are swapped relative to the grid's shift primitive. -/
theorem C2_shift_info_descriptor (c : Cart) (sp : Nat → Int → Int × Int)
    (d : Nat) (disp : Int) (hd : d < c.ndims) (hsh : c.shape.length = c.ndims)
    (hdisp : disp = 1 ∨ disp = -1) :
    (compute_shift_info c sp d disp).buf_shape.getD d 0 =
      c.shifts.getD d 0 * c.pads.getD d 0 ∧
    (∀ i, i < c.ndims → i ≠ d →
      (compute_shift_info c sp d disp).buf_shape.getD i 0 = c.shape.getD i 0 ∧
      (compute_shift_info c sp d disp).send_starts.getD i 0 = 0 ∧
      (compute_shift_info c sp d disp).recv_starts.getD i 0 = 0) ∧
    (disp = 1 →
      (compute_shift_info c sp d disp).send_starts.getD d 0 =
        c.ends.getD d 0 - c.starts.getD d 0 + 1 ∧
      (compute_shift_info c sp d disp).recv_starts.getD d 0 = 0) ∧
    (disp = -1 →
      (compute_shift_info c sp d disp).send_starts.getD d 0 =
        c.shifts.getD d 0 * c.pads.getD d 0 ∧
      (compute_shift_info c sp d disp).recv_starts.getD d 0 =
        c.ends.getD d 0 - c.starts.getD d 0 + 1 + c.shifts.getD d 0 * c.pads.getD d 0) ∧
    (c.reverse_axis = some d →
      (compute_shift_info c sp d disp).rank_source = (sp d disp).2 ∧
      (compute_shift_info c sp d disp).rank_dest = (sp d disp).1) ∧
    (c.reverse_axis ≠ some d →
      (compute_shift_info c sp d disp).rank_source = (sp d disp).1 ∧
      (compute_shift_info c sp d disp).rank_dest = (sp d disp).2) := by
  refine ⟨?_, ?_, ?_, ?_, ?_, ?_⟩
  · show (c.shape.set d (c.shifts.getD d 0 * c.pads.getD d 0)).getD d 0 = _
    exact set_getD_same _ _ _ _ (by omega)
  · intro i hi hne
    refine ⟨?_, ?_, ?_⟩
    · show (c.shape.set d (c.shifts.getD d 0 * c.pads.getD d 0)).getD i 0 = _
      exact set_getD_ne _ _ _ _ _ fun he => hne he.symm
    · show (if 0 < disp then
          (List.replicate c.ndims (0 : Int)).set d
            (c.ends.getD d 0 - c.starts.getD d 0 + 1)
        else if disp < 0 then
          (List.replicate c.ndims (0 : Int)).set d (c.shifts.getD d 0 * c.pads.getD d 0)
        else List.replicate c.ndims (0 : Int)).getD i 0 = 0
      split
      · rw [set_getD_ne _ _ _ _ _ fun he => hne he.symm]
        exact replicate_getD _ _ _ _ hi
      split
      · rw [set_getD_ne _ _ _ _ _ fun he => hne he.symm]
        exact replicate_getD _ _ _ _ hi
      · exact replicate_getD _ _ _ _ hi
    · show (if 0 < disp then (List.replicate c.ndims (0 : Int)).set d 0
        else if disp < 0 then
          (List.replicate c.ndims (0 : Int)).set d
            (c.ends.getD d 0 - c.starts.getD d 0 + 1 + c.shifts.getD d 0 * c.pads.getD d 0)
        else List.replicate c.ndims (0 : Int)).getD i 0 = 0
      split
      · rw [set_getD_ne _ _ _ _ _ fun he => hne he.symm]
        exact replicate_getD _ _ _ _ hi
      split
      · rw [set_getD_ne _ _ _ _ _ fun he => hne he.symm]
        exact replicate_getD _ _ _ _ hi
      · exact replicate_getD _ _ _ _ hi
  · intro h1
    subst h1
    constructor
    · show (if (0 : Int) < 1 then
          (List.replicate c.ndims (0 : Int)).set d
            (c.ends.getD d 0 - c.starts.getD d 0 + 1)
        else if (1 : Int) < 0 then
          (List.replicate c.ndims (0 : Int)).set d (c.shifts.getD d 0 * c.pads.getD d 0)
        else List.replicate c.ndims (0 : Int)).getD d 0 = _
      rw [if_pos (by norm_num)]
      exact set_getD_same _ _ _ _ (by simp; omega)
    · show (if (0 : Int) < 1 then (List.replicate c.ndims (0 : Int)).set d 0
        else if (1 : Int) < 0 then
          (List.replicate c.ndims (0 : Int)).set d
            (c.ends.getD d 0 - c.starts.getD d 0 + 1 + c.shifts.getD d 0 * c.pads.getD d 0)
        else List.replicate c.ndims (0 : Int)).getD d 0 = 0
      rw [if_pos (by norm_num)]
      exact set_getD_same _ _ _ _ (by simp; omega)
  · intro h1
    subst h1
    constructor
    · show (if (0 : Int) < -1 then
          (List.replicate c.ndims (0 : Int)).set d
            (c.ends.getD d 0 - c.starts.getD d 0 + 1)
        else if (-1 : Int) < 0 then
          (List.replicate c.ndims (0 : Int)).set d (c.shifts.getD d 0 * c.pads.getD d 0)
        else List.replicate c.ndims (0 : Int)).getD d 0 = _
      rw [if_neg (by norm_num), if_pos (by norm_num)]
      exact set_getD_same _ _ _ _ (by simp; omega)
    · show (if (0 : Int) < -1 then (List.replicate c.ndims (0 : Int)).set d 0
        else if (-1 : Int) < 0 then
          (List.replicate c.ndims (0 : Int)).set d
            (c.ends.getD d 0 - c.starts.getD d 0 + 1 + c.shifts.getD d 0 * c.pads.getD d 0)
        else List.replicate c.ndims (0 : Int)).getD d 0 = _
      rw [if_neg (by norm_num), if_pos (by norm_num)]
      exact set_getD_same _ _ _ _ (by simp; omega)
  · intro hra
    constructor
    · show (if c.reverse_axis = some d then (sp d disp).2 else (sp d disp).1) = _
      rw [if_pos hra]
    · show (if c.reverse_axis = some d then (sp d disp).1 else (sp d disp).2) = _
      rw [if_pos hra]
  · intro hra
    constructor
    · show (if c.reverse_axis = some d then (sp d disp).2 else (sp d disp).1) = _
      rw [if_neg hra]
    · show (if c.reverse_axis = some d then (sp d disp).1 else (sp d disp).2) = _
      rw [if_neg hra]

/-- A concrete stand-in for the grid's shift primitive, used only in the
witness. -/
def spEx : Nat → Int → Int × Int := fun d disp => (Int.ofNat d - disp, Int.ofNat d + disp)

/-- C2 witness: the descriptor equalities on direction 1, displacement -1
of the concrete example. -/
theorem C2_shift_info_descriptor_witness :
    (compute_shift_info cartEx spEx 1 (-1)).buf_shape.getD 1 0 =
      cartEx.shifts.getD 1 0 * cartEx.pads.getD 1 0 ∧
    (compute_shift_info cartEx spEx 1 (-1)).buf_shape.getD 0 0 = cartEx.shape.getD 0 0 ∧
    (compute_shift_info cartEx spEx 1 (-1)).send_starts.getD 1 0 =
      cartEx.shifts.getD 1 0 * cartEx.pads.getD 1 0 ∧
    (compute_shift_info cartEx spEx 1 (-1)).recv_starts.getD 1 0 =
      cartEx.ends.getD 1 0 - cartEx.starts.getD 1 0 + 1 +
        cartEx.shifts.getD 1 0 * cartEx.pads.getD 1 0 ∧
    (compute_shift_info cartEx spEx 1 (-1)).rank_source = (spEx 1 (-1)).1 := by
  have h := C2_shift_info_descriptor cartEx spEx 1 (-1) (by decide) (by decide)
    (Or.inr rfl)
  exact ⟨h.1, (h.2.1 0 (by decide) (by decide)).1, (h.2.2.2.1 rfl).1,
    (h.2.2.2.1 rfl).2, (h.2.2.2.2.2 (by decide)).1⟩

/-- C7: malformed constructor arguments (length mismatch among
npts/pads/periods, a point count below 1, a negative pad, or a non-boolean
periodicity flag) make construction fail before any collective call: the
result is an error and the trace of collective calls is empty, so no
communicator or topology state is created. -/
theorem C7_fail_fast_validation
    (cd : Nat → List Int → List Int → Option (List Nat))
    (npts pads : List Int) (periods : List PyVal) (reorder : Bool)
    (comm : Option CommEnv) (shifts : Option (List Int))
    (nprocs : Option (List Nat)) (ra : Option Nat)
    (hbad : ¬ (npts.length = pads.length ∧ pads.length = periods.length) ∨
            ¬ npts.all (fun n => 1 ≤ n) = true ∨
            ¬ pads.all (fun p => 0 ≤ p) = true ∨
            ¬ periods.all PyVal.isBool = true) :
    ∃ e, cartInit cd npts pads periods reorder comm shifts nprocs ra = (.error e, []) := by
  unfold cartInit
  split
  · exact ⟨_, rfl⟩
  next hc1 =>
  split
  · exact ⟨_, rfl⟩
  next hc2 =>
  split
  · exact ⟨_, rfl⟩
  next hc3 =>
  split
  · exact ⟨_, rfl⟩
  next hc4 =>
  exfalso
  rw [not_not] at hc1 hc2 hc3 hc4
  rcases hbad with hb | hb | hb | hb
  · exact hb hc1
  · exact hb hc2
  · exact hb hc3
  · exact hb hc4

/-- C7 witness: a non-boolean periodicity flag (the Python int `1`) on an
otherwise well-formed input is rejected with an empty collective trace. -/
theorem C7_fail_fast_validation_witness :
    ∃ e, cartInit cdEx [5] [0] [PyVal.int 1] false (some commEx) none none none =
      (.error e, []) :=
  C7_fail_fast_validation cdEx [5] [0] [PyVal.int 1] false (some commEx) none none none
    (Or.inr (Or.inr (Or.inr (by decide))))

/-- C3: `reduce_elements(axes=[0], n_elements=[2])` on the concrete
topology with `npts=[10,10]` does NOT return a reduced topology: the
method's first statement constructs a `CartDecomposition` without a
communicator, so the nested constructor's
`assert isinstance(comm, MPI.Comm)` fails and the call raises, for every
possible `compute_dims`. (Were the constructor to get past this point,
`zip(cart.npts, n_elements)` with `n_elements=[2]` would truncate `npts`
to a 1-tuple `(8,)`, not `[8,10]`.) -/
theorem C3_reduce_elements_raises
    (cd : Nat → List Int → List Int → Option (List Nat)) :
    reduce_elements cd cartEx [0] [2] = (cartEx, .error CartError.commNotComm) := rfl

/-- C9: neither `reduce_elements` nor `reduce_grid` mutates the original
topology: in the state-passing embedding, the post-state of `self` equals
its pre-state for every input (the derived cart, when produced, is a
separate value). -/
theorem C9_derived_topologies_no_mutation
    (cd : Nat → List Int → List Int → Option (List Nat)) (self : Cart)
    (axes : List Nat) (n_elements : List Int) (gs ge : List (List Int)) :
    (reduce_elements cd self axes n_elements).1 = self ∧
    (reduce_grid cd self gs ge).1 = self := by
  constructor
  · unfold reduce_elements
    split
    · rfl
    · dsimp only
      split
      · rfl
      · rfl
  · unfold reduce_grid
    split
    · rfl
    · rfl

lemma map_getD {α β : Type} (l : List α) (f : α → β) (i : Nat) (d1 : α) (d : β)
    (h : i < l.length) : (l.map f).getD i d = f (l.getD i d1) := by
  rw [List.getD_eq_getElem _ _ (by simpa using h), List.getElem_map,
      List.getD_eq_getElem _ _ h]

/-- C5: a successful `reduce_grid(global_starts, global_ends)` returns a
topology whose `npts[axis]` equals `global_ends[axis][-1]+1`, whose pads
are the original ones, whose index tables are the supplied ones wholesale,
and whose local shape along each axis is `ends-starts+1+2*pad`: the ghost
width uses plain `pad`, not `shift*pad`. -/
theorem C5_reduce_grid_plain_pad
    (cd : Nat → List Int → List Int → Option (List Nat)) (self c : Cart)
    (gsT geT : List (List Int)) (axis : Nat)
    (h : (reduce_grid cd self gsT geT).2 = .ok c)
    (haxg : axis < gsT.length) (haxe : axis < geT.length)
    (hcl : axis < self.coords.length) (hpl : axis < self.pads.length) :
    c.pads = self.pads ∧
    c.npts.getD axis 0 = (geT.getD axis []).getD ((geT.getD axis []).length - 1) 0 + 1 ∧
    c.shape.getD axis 0 =
      c.ends.getD axis 0 - c.starts.getD axis 0 + 1 + 2 * c.pads.getD axis 0 ∧
    c.global_starts = gsT ∧ c.global_ends = geT := by
  unfold reduce_grid at h
  split at h
  · simp at h
  next cart0 hok =>
    obtain ⟨commE, dims, hcomm, hprod, hl1, hl2, hnp, hc0⟩ :=
      cartInit_ok cd self.npts self.pads (self.periods.map PyVal.bool) self.reorder
        self.comm none none none cart0 hok
    have hpads0 : cart0.pads = self.pads := by rw [hc0, cartBuild_pads]
    simp only [Except.ok.injEq] at h
    subst h
    refine ⟨hpads0, ?_, ?_, rfl, rfl⟩
    · exact map_getD _ _ _ [] _ haxe
    · have hs1 : axis < ((self.coords.zip gsT).map fun x => x.2.getD x.1 0).length := by
        simp [List.length_zip]
        omega
      have he1 : axis < ((self.coords.zip geT).map fun x => x.2.getD x.1 0).length := by
        simp [List.length_zip]
        omega
      show (List.map (fun x => x.1.2 - x.1.1 + 1 + 2 * x.2)
          ((((self.coords.zip gsT).map fun x => x.2.getD x.1 0).zip
            ((self.coords.zip geT).map fun x => x.2.getD x.1 0)).zip cart0.pads)).getD
          axis 0 = _
      rw [zipMap_getD _ _ _ _ _ ((0 : Int), (0 : Int)) (0 : Int)
          (by simp [List.length_zip]; omega) (by rw [hpads0]; exact hpl)]
      rw [zip_getD _ _ _ _ _ hs1 he1, hpads0]

/-- A concrete successful `reduce_grid` call on the example topology. -/
def reduceGridEx : Cart × Except CartError Cart :=
  reduce_grid cdEx cartEx [[0], [0, 5]] [[7], [4, 8]]

/-- The derived cart returned by `reduceGridEx`. -/
def reduceGridCartEx : Cart :=
  match reduceGridEx.2 with
  | .ok c => c
  | .error _ => default

/-- C5 witness: the plain-pad shape and wholesale table replacement on the
concrete `reduce_grid` call. -/
theorem C5_reduce_grid_plain_pad_witness :
    reduceGridCartEx.pads = cartEx.pads ∧
    reduceGridCartEx.npts.getD 1 0 =
      (([[7], [4, 8]] : List (List Int)).getD 1 []).getD
        ((([[7], [4, 8]] : List (List Int)).getD 1 []).length - 1) 0 + 1 ∧
    reduceGridCartEx.shape.getD 1 0 =
      reduceGridCartEx.ends.getD 1 0 - reduceGridCartEx.starts.getD 1 0 + 1 +
        2 * reduceGridCartEx.pads.getD 1 0 ∧
    reduceGridCartEx.global_starts = [[0], [0, 5]] ∧
    reduceGridCartEx.global_ends = [[7], [4, 8]] :=
  C5_reduce_grid_plain_pad cdEx cartEx reduceGridCartEx [[0], [0, 5]] [[7], [4, 8]] 1
    rfl (by decide) (by decide) (by decide) (by decide)

lemma cumsumFrom_length (acc : Int) (l : List Int) :
    (cumsumFrom acc l).length = l.length := by
  induction l generalizing acc with
  | nil => rfl
  | cons a t ih => simp [cumsumFrom, ih]

lemma cumsum_chain (l : List Int) : ∀ (acc : Int) (k : Nat), k < l.length →
    (acc :: cumsumFrom acc l).getD (k + 1) 0 =
      (acc :: cumsumFrom acc l).getD k 0 + l.getD k 0 := by
  induction l with
  | nil =>
    intro acc k h
    simp at h
  | cons a t ih =>
    intro acc k h
    cases k with
    | zero => simp [cumsumFrom]
    | succ k =>
      have hk : k < t.length := by simpa using h
      have := ih (acc + a) k hk
      simpa [cumsumFrom] using this

lemma cumsum_last (l : List Int) : ∀ acc : Int,
    (acc :: cumsumFrom acc l).getD l.length 0 = acc + l.sum := by
  induction l with
  | nil =>
    intro acc
    simp [cumsumFrom]
  | cons a t ih =>
    intro acc
    have h2 := ih (acc + a)
    simp only [cumsumFrom, List.length_cons, List.getD_cons_succ, List.sum_cons] at h2 ⊢
    omega

lemma sliceShape_getD_axis (gs ge : List (List Int)) (pads : List Int) (axis : Nat)
    (ext : Int) (coords : List Nat) (h : axis < coords.length) :
    (sliceShape gs ge pads axis ext coords).getD axis 0 = pads.getD axis 0 + 1 := by
  simp only [sliceShape]
  rw [zipMap_getD _ _ _ _ _ 0 0 (by simp [h]) (by simp [h])]
  simp only []
  rw [set_getD_same _ _ _ _ (by simp [h]), set_getD_same _ _ _ _ (by simp [h])]
  rcases eq_or_ne ext (-1) with hext | hext
  · simp only [if_pos hext]
    omega
  · simp only [if_neg hext]
    omega

/-- C6: the interface exchange plan's displacement table has length
`len(boundary_ranks)+1`, starts at 0, is the prefix sum of the per-rank
receive counts, each receive count is the volume of the remote boundary
rank's slice whose extent along the interface axis is `pads+1`, and the
final displacement (the receive buffer size) is the sum of all slice
volumes. -/
theorem C6_interface_recv_plan (gs ge : List (List Int)) (pads : List Int)
    (axis : Nat) (ext : Int) (nprocs : List Nat) (br : List Nat)
    (haxis : axis < nprocs.length) :
    (commDisplacements (commRecvCounts gs ge pads axis ext nprocs br)).length =
      br.length + 1 ∧
    (commDisplacements (commRecvCounts gs ge pads axis ext nprocs br)).getD 0 0 = 0 ∧
    (∀ k, k < br.length →
      (commDisplacements (commRecvCounts gs ge pads axis ext nprocs br)).getD (k + 1) 0 =
        (commDisplacements (commRecvCounts gs ge pads axis ext nprocs br)).getD k 0 +
          (commRecvCounts gs ge pads axis ext nprocs br).getD k 0) ∧
    (∀ k, k < br.length →
      (commRecvCounts gs ge pads axis ext nprocs br).getD k 0 =
        (sliceShape gs ge pads axis ext (unravelIndex (br.getD k 0) nprocs)).prod ∧
      (sliceShape gs ge pads axis ext (unravelIndex (br.getD k 0) nprocs)).getD axis 0 =
        pads.getD axis 0 + 1) ∧
    (commDisplacements (commRecvCounts gs ge pads axis ext nprocs br)).getD br.length 0 =
      (commRecvCounts gs ge pads axis ext nprocs br).sum := by
  have hlen : (commRecvCounts gs ge pads axis ext nprocs br).length = br.length := by
    simp [commRecvCounts]
  refine ⟨?_, rfl, ?_, ?_, ?_⟩
  · simp [commDisplacements, cumsumFrom_length, hlen]
  · intro k hk
    exact cumsum_chain (commRecvCounts gs ge pads axis ext nprocs br) 0 k (by omega)
  · intro k hk
    constructor
    · exact map_getD _ _ _ 0 _ (by omega)
    · exact sliceShape_getD_axis _ _ _ _ _ _ (by rw [unravelIndex_length]; exact haxis)
  · have h2 := cumsum_last (commRecvCounts gs ge pads axis ext nprocs br) 0
    rw [hlen] at h2
    simpa using h2

/-- C6 witness: the plan equalities on a concrete 1D interface with two
remote boundary ranks (`nprocs=[2]`, tables for 10 points, pad 1). -/
theorem C6_interface_recv_plan_witness :
    (commDisplacements (commRecvCounts [[0, 5]] [[4, 9]] [1] 0 (-1) [2] [0, 1])).length =
      ([0, 1] : List Nat).length + 1 ∧
    (commDisplacements (commRecvCounts [[0, 5]] [[4, 9]] [1] 0 (-1) [2] [0, 1])).getD 0 0 = 0 ∧
    (commDisplacements (commRecvCounts [[0, 5]] [[4, 9]] [1] 0 (-1) [2] [0, 1])).getD 2 0 =
      (commDisplacements (commRecvCounts [[0, 5]] [[4, 9]] [1] 0 (-1) [2] [0, 1])).getD 1 0 +
        (commRecvCounts [[0, 5]] [[4, 9]] [1] 0 (-1) [2] [0, 1]).getD 1 0 ∧
    (commRecvCounts [[0, 5]] [[4, 9]] [1] 0 (-1) [2] [0, 1]).getD 1 0 =
      (sliceShape [[0, 5]] [[4, 9]] [1] 0 (-1)
        (unravelIndex (([0, 1] : List Nat).getD 1 0) [2])).prod ∧
    (sliceShape [[0, 5]] [[4, 9]] [1] 0 (-1)
        (unravelIndex (([0, 1] : List Nat).getD 1 0) [2])).getD 0 0 =
      ([1] : List Int).getD 0 0 + 1 ∧
    (commDisplacements (commRecvCounts [[0, 5]] [[4, 9]] [1] 0 (-1) [2] [0, 1])).getD
        ([0, 1] : List Nat).length 0 =
      (commRecvCounts [[0, 5]] [[4, 9]] [1] 0 (-1) [2] [0, 1]).sum := by
  have h := C6_interface_recv_plan [[0, 5]] [[4, 9]] [1] 0 (-1) [2] [0, 1] (by decide)
  exact ⟨h.1, h.2.1, h.2.2.1 1 (by decide), (h.2.2.2.1 1 (by decide)).1,
    (h.2.2.2.1 1 (by decide)).2, h.2.2.2.2⟩

lemma foldl_set_getD_not_mem (l : List (Nat × Int)) (j : Nat)
    (hj : ∀ p ∈ l, p.1 ≠ j) : ∀ arr : List Int,
    (l.foldl (fun a x => a.set x.1 x.2) arr).getD j 0 = arr.getD j 0 := by
  induction l with
  | nil =>
    intro arr
    rfl
  | cons p t ih =>
    intro arr
    rw [List.foldl_cons, ih fun q hq => hj q (List.mem_cons_of_mem _ hq)]
    exact set_getD_ne _ _ _ _ _ (hj p (List.mem_cons_self _ _))

lemma npAssign_getD_not_mem (arr : List Int) (ind : List Nat) (vals : List Int)
    (j : Nat) (hj : j ∉ ind) :
    (npAssign arr ind vals).getD j 0 = arr.getD j 0 := by
  apply foldl_set_getD_not_mem
  intro p hp he
  exact hj (he ▸ (List.of_mem_zip hp).1)

lemma npAssign_getD_mem (ind : List Nat) : ∀ (vals : List Int) (arr : List Int)
    (k : Nat), ind.Nodup → ind.length = vals.length → k < ind.length →
    ind.getD k 0 < arr.length →
    (npAssign arr ind vals).getD (ind.getD k 0) 0 = vals.getD k 0 := by
  induction ind with
  | nil =>
    intro vals arr k _ _ hk _
    simp at hk
  | cons i t ih =>
    intro vals arr k hnd hlen hk hb
    cases vals with
    | nil => simp at hlen
    | cons v vt =>
      cases k with
      | zero =>
        show (npAssign (arr.set i v) t vt).getD i 0 = v
        rw [npAssign, foldl_set_getD_not_mem _ _ ?hm]
        case hm =>
          intro p hp he
          exact (List.nodup_cons.mp hnd).1 (he ▸ (List.of_mem_zip hp).1)
        exact set_getD_same _ _ _ _ hb
      | succ k =>
        show (npAssign (arr.set i v) t vt).getD (t.getD k 0) 0 = vt.getD k 0
        exact ih vt (arr.set i v) k (List.nodup_cons.mp hnd).2
          (by simpa using hlen) (by simpa using hk) (by simpa using hb)

/-- C8: `end_update_ghost_regions` scatters the packed receive buffer
through the flat-index table into exactly the opposite side's array: a
minus-side rank writes `array_plus` and leaves `array_minus` untouched, a
plus-side rank writes `array_minus`; in the written array the position
`indices[k]` holds `recv_buf[k]` for every `k`, and every position not in
the index table is unchanged. -/
theorem C8_end_update_scatter (lp : Option Nat) (rm : Nat)
    (indices : List Nat) (recv_buf : List Int) (am ap : List Int)
    (hnd : indices.Nodup) (hlen : indices.length = recv_buf.length)
    (hbp : ∀ k, k < indices.length → indices.getD k 0 < ap.length)
    (hbm : ∀ k, k < indices.length → indices.getD k 0 < am.length) :
    end_update_ghost_regions (some rm) lp indices recv_buf am ap =
      (am, npAssign ap indices recv_buf) ∧
    end_update_ghost_regions none (some rm) indices recv_buf am ap =
      (npAssign am indices recv_buf, ap) ∧
    (∀ k, k < indices.length →
      (npAssign ap indices recv_buf).getD (indices.getD k 0) 0 = recv_buf.getD k 0) ∧
    (∀ j, j ∉ indices → (npAssign ap indices recv_buf).getD j 0 = ap.getD j 0) ∧
    (∀ k, k < indices.length →
      (npAssign am indices recv_buf).getD (indices.getD k 0) 0 = recv_buf.getD k 0) ∧
    (∀ j, j ∉ indices → (npAssign am indices recv_buf).getD j 0 = am.getD j 0) := by
  refine ⟨rfl, rfl, ?_, ?_, ?_, ?_⟩
  · intro k hk
    exact npAssign_getD_mem indices recv_buf ap k hnd hlen hk (hbp k hk)
  · intro j hj
    exact npAssign_getD_not_mem ap indices recv_buf j hj
  · intro k hk
    exact npAssign_getD_mem indices recv_buf am k hnd hlen hk (hbm k hk)
  · intro j hj
    exact npAssign_getD_not_mem am indices recv_buf j hj

/-- C8 witness: a concrete scatter with index table `[1,3]` and buffer
`[10,20]` into 4-element arrays. -/
theorem C8_end_update_scatter_witness :
    end_update_ghost_regions (some 0) none [1, 3] [10, 20] [0, 0, 0, 0] [5, 5, 5, 5] =
      ([0, 0, 0, 0], npAssign [5, 5, 5, 5] [1, 3] [10, 20]) ∧
    (npAssign ([5, 5, 5, 5] : List Int) [1, 3] [10, 20]).getD
        (([1, 3] : List Nat).getD 0 0) 0 = ([10, 20] : List Int).getD 0 0 ∧
    (npAssign ([5, 5, 5, 5] : List Int) [1, 3] [10, 20]).getD 2 0 =
      ([5, 5, 5, 5] : List Int).getD 2 0 := by
  have h := C8_end_update_scatter none 0 [1, 3] [10, 20] [0, 0, 0, 0] [5, 5, 5, 5]
    (by decide) (by decide) (by decide) (by decide)
  exact ⟨h.1, h.2.2.1 0 (by decide), h.2.2.2.1 2 (by decide)⟩
